import Mathlib

/-!
Verification of the resilient upstream request executor in `http_rest.go`
(backoff calculator, retry classifier, request executor, method builders).

Go machine integers (`time.Duration` is `int64`) are modelled as `Int`
with explicit wrapping modulo `2^64` into the signed range; the
`rand.Float64()` draw is modelled as an exact rational `r` with
`0 ≤ r < 1`, and Go's float-to-integer conversion as truncation toward
zero (both the exact rational and the IEEE double computation of
`r*0.4-0.2` land strictly inside `(-1, 1)`, where truncation toward zero
is `0` in either arithmetic, so the rational model is faithful for every
fact proved here).
-/

/-- Wrap an unbounded integer into the signed 64-bit range
`[-2^63, 2^63)`, as Go `int64` arithmetic does on overflow. -/
def wrap64 (x : Int) : Int :=
  (x + 2 ^ 63) % 2 ^ 64 - 2 ^ 63

/-- Go `1 << n` at type `int64` (`time.Duration`): `2^n` for `n < 63`,
the most negative value for `n = 63`, and `0` for `n ≥ 64` (Go shifts do
not mask the shift count). All three cases are `wrap64 (2^n)`. -/
def goShl1 (n : Nat) : Int :=
  wrap64 (2 ^ n)

/-- Truncation of a rational toward zero: Go's conversion of a `float64`
value to the integer type `time.Duration`. -/
def truncQ (q : ℚ) : Int :=
  if 0 ≤ q then ⌊q⌋ else -⌊-q⌋

/-- Nanoseconds in one second: Go `time.Second`. -/
def nsPerSecond : Int := 1000000000

/-- `calcBackoff` from http_rest.go lines 48-62, one call modelled with
the `rand.Float64()` draw `r` passed explicitly:

    backoff := baseDelay * time.Duration(1<<time.Duration(attempt))
    jitter := time.Duration(rand.Float64()*0.4-0.2) * backoff
    backoff += jitter
    maxBackoff := 30 * time.Second
    if backoff > maxBackoff { backoff = maxBackoff }
    return backoff

The float factor is converted to `time.Duration` (truncated) BEFORE the
multiplication by `backoff`; every `int64` operation wraps. -/
def calcBackoff (attempt : Nat) (baseDelay : Int) (r : ℚ) : Int :=
  let backoff := wrap64 (baseDelay * goShl1 attempt)
  let jitter := wrap64 (truncQ (r * (2 / 5) - 1 / 5) * backoff)
  let backoff2 := wrap64 (backoff + jitter)
  let maxBackoff := 30 * nsPerSecond
  if backoff2 > maxBackoff then maxBackoff else backoff2

/-- `isRetryableStatusCode` from http_rest.go lines 64-69:
`code == 429 || code == 503 || code == 504 || code >= 500`. -/
def isRetryableStatusCode (code : Int) : Bool :=
  code == 429 || code == 503 || code == 504 || decide (500 ≤ code)

/-- `isSuccessStatus` from http_rest.go lines 71-73:
`code >= 200 && code < 300`. -/
def isSuccessStatus (code : Int) : Bool :=
  decide (200 ≤ code) && decide (code < 300)

/-- The deterministic residue of `calcBackoff`: what one call computes
once the jitter term is known to be zero. -/
def calcBackoffDet (attempt : Nat) (baseDelay : Int) : Int :=
  if wrap64 (baseDelay * goShl1 attempt) > 30 * nsPerSecond then
    30 * nsPerSecond
  else wrap64 (baseDelay * goShl1 attempt)

theorem truncQ_eq_zero {q : ℚ} (h1 : -1 < q) (h2 : q < 1) :
    truncQ q = 0 := by
  unfold truncQ
  by_cases h0 : 0 ≤ q
  · simp only [h0, if_pos]
    exact Int.floor_eq_zero_iff.mpr ⟨h0, h2⟩
  · simp only [h0, if_neg, not_false_iff, neg_eq_zero]
    refine Int.floor_eq_zero_iff.mpr ⟨?_, ?_⟩
    · linarith [not_le.mp h0]
    · linarith

theorem jitter_factor_zero {r : ℚ} (h0 : 0 ≤ r) (h1 : r < 1) :
    truncQ (r * (2 / 5) - 1 / 5) = 0 := by
  apply truncQ_eq_zero <;> nlinarith

theorem wrap64_fixed {y : Int} (hlo : -(2 ^ 63) ≤ y) (hhi : y < 2 ^ 63) :
    wrap64 y = y := by
  unfold wrap64
  rw [Int.emod_eq_of_lt (by linarith) (by norm_num; linarith)]
  ring

theorem wrap64_mem (x : Int) :
    -(2 ^ 63) ≤ wrap64 x ∧ wrap64 x < 2 ^ 63 := by
  unfold wrap64
  constructor
  · have := Int.emod_nonneg (x + 2 ^ 63) (b := 2 ^ 64) (by norm_num)
    linarith
  · have := Int.emod_lt_of_pos (x + 2 ^ 63) (b := (2 ^ 64 : Int))
      (by norm_num)
    norm_num at this ⊢
    linarith

/-- With any draw `r ∈ [0,1)`, the jitter term of `calcBackoff` is zero
and the call collapses to the deterministic `calcBackoffDet`. -/
theorem calcBackoff_eq_det (attempt : Nat) (baseDelay : Int) {r : ℚ}
    (h0 : 0 ≤ r) (h1 : r < 1) :
    calcBackoff attempt baseDelay r = calcBackoffDet attempt baseDelay := by
  unfold calcBackoff calcBackoffDet
  rw [jitter_factor_zero h0 h1]
  have hz : wrap64 ((0 : Int) * wrap64 (baseDelay * goShl1 attempt)) = 0 := by
    rw [zero_mul]
    exact wrap64_fixed (by norm_num) (by norm_num)
  simp only [hz, add_zero]
  rw [wrap64_fixed (wrap64_mem (baseDelay * goShl1 attempt)).1
    (wrap64_mem (baseDelay * goShl1 attempt)).2]

/-- In the non-overflowing range the deterministic residue is exactly
the clamped nominal delay `min (b * 2^i) (30 s)`. -/
theorem calcBackoffDet_eq_min {i : Nat} {b : Int} (hb0 : 0 ≤ b)
    (hov : b * 2 ^ i < 2 ^ 63) :
    calcBackoffDet i b = min (b * 2 ^ i) (30 * nsPerSecond) := by
  unfold calcBackoffDet
  rcases eq_or_lt_of_le hb0 with hb | hb
  · rw [← hb]
    have h0 : wrap64 ((0 : Int) * goShl1 i) = 0 := by
      rw [zero_mul]
      exact wrap64_fixed (by norm_num) (by norm_num)
    rw [h0, zero_mul, min_def]
    simp only [nsPerSecond]
    split_ifs <;> omega
  · have hb1 : (1 : Int) ≤ b := hb
    have hpnn : (0 : Int) ≤ 2 ^ i := pow_nonneg (by norm_num) i
    have hple : (2 : Int) ^ i ≤ b * 2 ^ i := le_mul_of_one_le_left hpnn hb1
    have hmul : (0 : Int) ≤ b * 2 ^ i := by positivity
    have hshl : goShl1 i = 2 ^ i := by
      unfold goShl1
      exact wrap64_fixed (by linarith) (by linarith)
    rw [hshl, wrap64_fixed (by linarith) hov, min_def]
    split_ifs <;> omega

/-- C3: the code comment promises plus-minus 20% jitter, but the float value
`rand.Float64()*0.4-0.2` lies in `[-0.2, 0.2)` and is converted to the
integer type `time.Duration` BEFORE multiplying, truncating it to zero:
two calls with very different draws (`0` and `0.99`) return the identical
un-jittered delay, here exactly 1 s for attempt 0 and base 1 s. -/
theorem c3_jitter_always_truncates_to_zero :
    calcBackoff 0 nsPerSecond 0 = nsPerSecond ∧
      calcBackoff 0 nsPerSecond (99 / 100) = nsPerSecond := by
  constructor
  · rw [calcBackoff_eq_det 0 nsPerSecond (le_refl 0) (by norm_num)]
    decide
  · rw [calcBackoff_eq_det 0 nsPerSecond (r := 99 / 100) (by norm_num)
      (by norm_num)]
    decide

/-- C4: at attempt 34 with base delay 1 s, `baseDelay * (1 << attempt)`
overflows `int64` and `calcBackoff` returns a negative duration (about
-40 years), escaping the 30 s clamp, contrary to the never-negative /
no-overflow requirement. -/
theorem c4_overflow_yields_negative_delay :
    calcBackoff 34 nsPerSecond (1 / 2) = -1266874889709551616 ∧
      calcBackoff 34 nsPerSecond (1 / 2) < 0 := by
  rw [calcBackoff_eq_det 34 nsPerSecond (r := 1 / 2) (by norm_num)
    (by norm_num)]
  constructor
  · decide
  · decide

/-- C10: in the non-overflowing range (`0 ≤ b`, `b * 2^i < 2^63`),
`calcBackoff` is a deterministic function of `(i, b)`: any two draws in
`[0,1)` give the same result, namely `min (b * 2^i) (30 s)` — the jitter
term `time.Duration(rand.Float64()*0.4-0.2)` truncates to zero. -/
theorem c10_calcBackoff_deterministic (i : Nat) (b : Int) (r s : ℚ)
    (hb0 : 0 ≤ b) (hov : b * 2 ^ i < 2 ^ 63)
    (hr0 : 0 ≤ r) (hr1 : r < 1) (hs0 : 0 ≤ s) (hs1 : s < 1) :
    calcBackoff i b r = calcBackoff i b s ∧
      calcBackoff i b r = min (b * 2 ^ i) (30 * nsPerSecond) := by
  rw [calcBackoff_eq_det i b hr0 hr1, calcBackoff_eq_det i b hs0 hs1]
  exact ⟨rfl, calcBackoffDet_eq_min hb0 hov⟩

/-- C10 witness: attempt 3, base 1 s, draws 1/3 and 2/3 both give 8 s. -/
theorem c10_calcBackoff_deterministic_witness :
    calcBackoff 3 nsPerSecond (1 / 3) = calcBackoff 3 nsPerSecond (2 / 3) ∧
      calcBackoff 3 nsPerSecond (1 / 3) =
        min (nsPerSecond * 2 ^ 3) (30 * nsPerSecond) :=
  c10_calcBackoff_deterministic 3 nsPerSecond (1 / 3) (2 / 3)
    (by norm_num [nsPerSecond]) (by norm_num [nsPerSecond])
    (by norm_num) (by norm_num) (by norm_num) (by norm_num)

/-- C1. The classifier is retryable exactly on `429`, `503`, `504` and
every code `≥ 500`, with NO upper bound at 599: this characterization is
the claim amended to let codes `≥ 600` (expressible in an HTTP status
line, outside the registered range) also be reported retryable. -/
theorem c1_isRetryableStatusCode_characterization (c : Int) :
    isRetryableStatusCode c = true ↔
      (c = 429 ∨ c = 503 ∨ c = 504 ∨ 500 ≤ c) := by
  simp [isRetryableStatusCode, Bool.or_eq_true, beq_iff_eq,
    decide_eq_true_iff]
  tauto

/-- C1 witness: `504` is reported retryable, via the characterization. -/
theorem c1_isRetryableStatusCode_witness :
    isRetryableStatusCode 504 = true :=
  (c1_isRetryableStatusCode_characterization 504).mpr
    (Or.inr (Or.inr (Or.inl rfl)))

/-- C1 counterexample: status code `600` is not `2xx` and lies outside
the set {429, 503, 504} ∪ [500, 599], yet the classifier reports it
retryable, not terminal, because the test `code >= 500` has no upper
bound. -/
theorem c1_counterexample_600 :
    isRetryableStatusCode 600 = true ∧
      isSuccessStatus 600 = false ∧
      ¬(600 = (429 : Int) ∨ 600 = (503 : Int) ∨ 600 = (504 : Int) ∨
        (500 ≤ (600 : Int) ∧ (600 : Int) ≤ 599)) := by
  refine ⟨by decide, by decide, ?_⟩
  decide

/-!
## The request executor

`execReq` (http_rest.go lines 75-128) runs a loop `for i := 0; i <
attempts; i++`. Each iteration: `c.client.Do(req)`; on transport error,
retry when `i < attempts-1` else return the wrapped error; otherwise
read the whole body (`io.ReadAll`); on read error, retry when `i <
attempts-1` else return; on non-2xx status, retry when `i < attempts-1
&& isRetryableStatusCode(...)` else return a `RequestError`; on 2xx
return the body. If the loop finishes (possible only when `attempts ≤
0`) it returns the "request failed after %d attempts" error.

One attempt's interaction with the transport is an oracle `Nat →
DoResult` indexed by the 0-based attempt number. Whether a transport
error stems from caller cancellation is recorded in the cause (Go:
`errors.Is(err, context.Canceled)`); the executor never inspects it.
Sleeps (`time.Sleep(calcBackoff(i, c.baseDelay))`, unconditional and not
context-aware) do not influence control flow and are not modelled.
-/

/-- The cause attached to a failed `c.client.Do`: whether it is a caller
cancellation / deadline error, plus an arbitrary identifying tag. -/
structure TransportCause where
  isCancellation : Bool
  tag : Nat
deriving DecidableEq

/-- A response as the executor sees it: status code, whether
`io.ReadAll(resp.Body)` succeeds, and the body text read. -/
structure HttpResponse where
  status : Int
  readOk : Bool
  body : String
deriving DecidableEq

/-- Result of `c.client.Do(req)` for one attempt. -/
inductive DoResult where
  | fail (cause : TransportCause)
  | resp (r : HttpResponse)
deriving DecidableEq

/-- The error values one attempt can produce (the only values ever
stored in `lastErr`): `fmt.Errorf("request failed: %w", err)`,
`fmt.Errorf("reading response: %w", err)`, and `&RequestError{...}`
carrying status code and body verbatim. -/
inductive AttemptError where
  | transportWrapped (cause : TransportCause)
  | readWrapped
  | requestError (statusCode : Int) (body : String)
deriving DecidableEq

/-- The error values `execReq` can return: either the last attempt's
error, returned directly from inside the loop, or the
`fmt.Errorf("request failed after %d attempts: %v", attempts, lastErr)`
error built after the loop. -/
inductive ExecError where
  | attempt (e : AttemptError)
  | exhausted (attempts : Nat) (last : Option AttemptError)
deriving DecidableEq

/-- Only the "request failed after %d attempts" error message states the
attempt count. -/
def mentionsAttemptCount : ExecError → Bool
  | .exhausted _ _ => true
  | _ => false

/-- `([]byte, error)` as returned by `execReq`. -/
inductive ExecResult where
  | ok (body : String)
  | error (e : ExecError)
deriving DecidableEq

/-- The loop of `execReq`, structurally recursing on the remaining
iterations `fuel = attempts - i` (so the Go guard `i < attempts` is
`fuel > 0`, and the Go retry guard `i < attempts-1` is `fuel' > 0` for
the fuel left after the current iteration). Returns the result together
with the number of attempts performed. -/
def execLoop (t : Nat → DoResult) (attempts : Nat) :
    Nat → Nat → Option AttemptError → ExecResult × Nat
  | i, 0, lastErr => (.error (.exhausted attempts lastErr), i)
  | i, fuel + 1, _ =>
    match t i with
    | .fail cause =>
      if fuel > 0 then
        execLoop t attempts (i + 1) fuel (some (.transportWrapped cause))
      else (.error (.attempt (.transportWrapped cause)), i + 1)
    | .resp r =>
      if r.readOk = false then
        if fuel > 0 then
          execLoop t attempts (i + 1) fuel (some .readWrapped)
        else (.error (.attempt .readWrapped), i + 1)
      else if isSuccessStatus r.status = false then
        if fuel > 0 && isRetryableStatusCode r.status then
          execLoop t attempts (i + 1) fuel
            (some (.requestError r.status r.body))
        else (.error (.attempt (.requestError r.status r.body)), i + 1)
      else (.ok r.body, i + 1)

/-- `execReq` from http_rest.go lines 75-128: run the attempt loop from
`i = 0` with no previous error, against transport oracle `t`. -/
def execReq (t : Nat → DoResult) (attempts : Nat) : ExecResult × Nat :=
  execLoop t attempts 0 attempts none

/-- A transport oracle whose every attempt fails with a caller
cancellation error (the caller's context was cancelled). -/
def alwaysCancelled : Nat → DoResult := fun _ => .fail ⟨true, 0⟩

/-- A transport oracle whose every attempt fails with an ordinary
transport error (tag 7). -/
def alwaysFail : Nat → DoResult := fun _ => .fail ⟨false, 7⟩

/-- A transport oracle that always answers 404 with body text nf. -/
def notFound404 : Nat → DoResult := fun _ => .resp ⟨404, true, "nf"⟩

/-- A transport oracle failing on attempts 0 and 1, then answering 200
with body ok. -/
def failTwiceThenOk : Nat → DoResult := fun i =>
  if i < 2 then .fail ⟨false, i⟩ else .resp ⟨200, true, "ok"⟩

/-- C2: `execReq` never inspects whether a transport error is a caller
cancellation; with the caller's context cancelled before attempt 0
(every `client.Do` returns the cancellation error) and `maxAttempts=3`,
it still performs all 3 attempts — sleeping `time.Sleep` (not
context-aware) between them — instead of short-circuiting after the
first, and returns the wrapped transport error only then. -/
theorem c2_cancellation_is_retried :
    execReq alwaysCancelled 3 =
      (.error (.attempt (.transportWrapped ⟨true, 0⟩)), 3) := by
  decide

/-- Every attempt of `t` fails: the loop consumes all its fuel and
returns the LAST failure wrapped, with one attempt per unit of fuel. -/
theorem execLoop_allFail (t : Nat → DoResult) (A : Nat)
    (cs : Nat → TransportCause) (h : ∀ j, t j = .fail (cs j)) :
    ∀ fuel i last, execLoop t A i (fuel + 1) last =
      (.error (.attempt (.transportWrapped (cs (i + fuel)))),
        i + fuel + 1) := by
  intro fuel
  induction fuel with
  | zero =>
    intro i last
    simp [execLoop, h i]
  | succ f ih =>
    intro i last
    have step : execLoop t A i (f + 1 + 1) last =
        execLoop t A (i + 1) (f + 1)
          (some (.transportWrapped (cs i))) := by
      simp [execLoop, h i, h (i + 1)]
    rw [step, ih (i + 1)]
    have h1 : i + 1 + f = i + (f + 1) := by omega
    rw [h1]

/-- C5 (amended): with `maxAttempts = N ≥ 1` and a transport failing on
every attempt, `execReq` performs exactly `N` attempts and returns the
last failure wrapped as "request failed: ..." — it does NOT return the
"request failed after %d attempts" exhaustion error, whose construction
after the loop is unreachable for `N ≥ 1`. -/
theorem c5_always_failing_returns_last_error (t : Nat → DoResult)
    (cs : Nat → TransportCause) (N : Nat) (hN : 1 ≤ N)
    (h : ∀ j, t j = .fail (cs j)) :
    execReq t N =
      (.error (.attempt (.transportWrapped (cs (N - 1)))), N) ∧
      mentionsAttemptCount (.attempt (.transportWrapped (cs (N - 1)))) =
        false := by
  constructor
  · obtain ⟨f, rfl⟩ : ∃ f, N = f + 1 := ⟨N - 1, by omega⟩
    unfold execReq
    rw [execLoop_allFail t (f + 1) cs h f 0 none]
    simp
  · rfl

/-- C5 witness: `N = 2`, transport failing with tag 7 on each attempt:
2 attempts, result is the wrapped last transport error. -/
theorem c5_always_failing_returns_last_error_witness :
    (1 ≤ 2 ∧
      execReq alwaysFail 2 =
        (.error (.attempt (.transportWrapped ⟨false, 7⟩)), 2)) := by
  refine ⟨by decide, ?_⟩
  have h := c5_always_failing_returns_last_error alwaysFail
    (fun _ => ⟨false, 7⟩) 2 (by decide) (fun j => rfl)
  exact h.1

/-- C5 counterexample: with `N = 2` and an always-failing transport the
returned error is the plain wrapped transport error; it is not of the
exhaustion form, and its rendering does not state the attempt count. -/
theorem c5_counterexample_no_exhaustion_error :
    (execReq alwaysFail 2).1 =
      .error (.attempt (.transportWrapped ⟨false, 7⟩)) ∧
      mentionsAttemptCount (.attempt (.transportWrapped ⟨false, 7⟩)) =
        false ∧
      (ExecError.attempt (.transportWrapped ⟨false, 7⟩) ≠
        .exhausted 2 (some (.transportWrapped ⟨false, 7⟩))) := by
  refine ⟨by decide, rfl, by decide⟩

/-- If the first `k` attempts starting at `i` fail at transport level
and attempt `i + k` yields a fully-read success response, the loop
returns that body after exactly `k + 1` further attempts (given fuel for
them). -/
theorem execLoop_failThenSuccess (t : Nat → DoResult) (A : Nat)
    (r : HttpResponse) (hro : r.readOk = true)
    (hss : isSuccessStatus r.status = true) :
    ∀ k i fuel last, k < fuel →
      (∀ j, j < k → ∃ c, t (i + j) = .fail c) →
      t (i + k) = .resp r →
      execLoop t A i fuel last = (.ok r.body, i + k + 1) := by
  intro k
  induction k with
  | zero =>
    intro i fuel last hfuel _ hsucc
    obtain ⟨f, rfl⟩ : ∃ f, fuel = f + 1 := ⟨fuel - 1, by omega⟩
    rw [Nat.add_zero] at hsucc
    simp [execLoop, hsucc, hro, hss]
  | succ k ih =>
    intro i fuel last hfuel hfail hsucc
    obtain ⟨f, rfl⟩ : ∃ f, fuel = f + 1 := ⟨fuel - 1, by omega⟩
    obtain ⟨c, hc⟩ := hfail 0 (Nat.succ_pos k)
    rw [Nat.add_zero] at hc
    have hf : 0 < f := by omega
    have step : execLoop t A i (f + 1) last =
        execLoop t A (i + 1) f (some (.transportWrapped c)) := by
      obtain ⟨g, rfl⟩ : ∃ g, f = g + 1 := ⟨f - 1, by omega⟩
      simp [execLoop, hc]
    rw [step]
    have h2 : execLoop t A (i + 1) f (some (.transportWrapped c)) =
        (.ok r.body, i + 1 + k + 1) := by
      refine ih (i + 1) f _ (by omega) ?_ ?_
      · intro j hj
        obtain ⟨d, hd⟩ := hfail (j + 1) (by omega)
        exact ⟨d, by rw [show i + 1 + j = i + (j + 1) from by omega]; exact hd⟩
      · rw [show i + 1 + k = i + (k + 1) from by omega]
        exact hsucc
    rw [h2]
    have h3 : i + 1 + k = i + (k + 1) := by omega
    rw [h3]

/-- C6: if the transport fails at transport level on the first `k < N`
attempts and attempt `k` returns a fully-read 2xx response, `execReq`
returns that body with no error after exactly `k + 1` attempts — no
further attempt follows the success. -/
theorem c6_success_after_k_failures (t : Nat → DoResult) (N k : Nat)
    (r : HttpResponse) (hk : k < N)
    (hfail : ∀ j, j < k → ∃ c, t j = .fail c)
    (hsucc : t k = .resp r) (hro : r.readOk = true)
    (hss : isSuccessStatus r.status = true) :
    execReq t N = (.ok r.body, k + 1) := by
  unfold execReq
  have := execLoop_failThenSuccess t N r hro hss k 0 N none hk
    (by intro j hj; simpa using hfail j hj) (by simpa using hsucc)
  simpa using this

/-- C6 witness: transport failing on attempts 0 and 1 then answering
200 ok, `maxAttempts = 3`: the result is the body after exactly 3
attempts. -/
theorem c6_success_after_k_failures_witness :
    execReq failTwiceThenOk 3 = (.ok "ok", 2 + 1) :=
  c6_success_after_k_failures failTwiceThenOk 3 2 ⟨200, true, "ok"⟩
    (by omega)
    (fun j hj => ⟨⟨false, j⟩, by simp [failTwiceThenOk, hj]⟩)
    (by simp [failTwiceThenOk]) rfl (by decide)

/-- C7: a fully-read response with a non-2xx, non-retryable status on
attempt 0 makes `execReq` return immediately after exactly 1 attempt,
with the `RequestError` carrying that status code and the body text
verbatim. -/
theorem c7_non_retryable_status_returns_immediately (t : Nat → DoResult)
    (N : Nat) (r : HttpResponse) (hN : 1 ≤ N) (h0 : t 0 = .resp r)
    (hro : r.readOk = true) (hns : isSuccessStatus r.status = false)
    (hnr : isRetryableStatusCode r.status = false) :
    execReq t N = (.error (.attempt (.requestError r.status r.body)), 1) := by
  obtain ⟨f, rfl⟩ : ∃ f, N = f + 1 := ⟨N - 1, by omega⟩
  unfold execReq
  simp [execLoop, h0, hro, hns, hnr]

/-- C7 witness: a transport answering 404 with body nf, `maxAttempts =
3`: one attempt, `RequestError` with status 404 and body nf. -/
theorem c7_non_retryable_status_returns_immediately_witness :
    execReq notFound404 3 =
      (.error (.attempt (.requestError 404 "nf")), 1) :=
  c7_non_retryable_status_returns_immediately notFound404 3
    ⟨404, true, "nf"⟩ (by omega) rfl rfl (by decide) (by decide)

/-- The CODE's stopping classification, read off the branches of
`execReq`: an attempt outcome after which its loop never continues —
a fully-read response that is either 2xx (success) or carries a
non-retryable status. The code retries every `client.Do` error and
every read failure while the budget lasts, so no transport failure is
in this class — NOT EVEN a caller cancellation, which §4.2 of the spec
classifies as terminal; that deviation is exactly the C2 bug, and
`specNonRetryableOutcome` below gives the spec's classification for
comparison. -/
def codeNonRetryableOutcome : DoResult → Bool
  | .fail _ => false
  | .resp r =>
    r.readOk && (isSuccessStatus r.status || !isRetryableStatusCode r.status)

/-- Modelled from the spec: §4.2's classification of one attempt's
outcome as terminal (non-retryable). A transport failure is terminal
exactly when it is a cancellation/deadline signaled by the caller
(which must short-circuit immediately, not retry); a body-read failure
is transport-class and retryable; a fully-read response is terminal
when it is 2xx (never retried) or its status is non-retryable. This
definition follows the spec's words and is the standard the C8 claim's
"non-retryable outcome" refers to; it is compared against the code's
`codeNonRetryableOutcome`. -/
def specNonRetryableOutcome : DoResult → Bool
  | .fail c => c.isCancellation
  | .resp r =>
    r.readOk && (isSuccessStatus r.status || !isRetryableStatusCode r.status)

/-- The loop performs at most `fuel` further attempts beyond index `i`. -/
theorem execLoop_used_le (t : Nat → DoResult) (A : Nat) :
    ∀ fuel i last, (execLoop t A i fuel last).2 ≤ i + fuel := by
  intro fuel
  induction fuel with
  | zero => intro i last; simp [execLoop]
  | succ f ih =>
    intro i last
    show (execLoop t A i (f + 1) last).2 ≤ i + (f + 1)
    rcases ht : t i with c | r
    · by_cases hf : f > 0
      · have := ih (i + 1) (some (.transportWrapped c))
        simp only [execLoop, ht, hf, if_pos]
        omega
      · simp [execLoop, ht, hf]
    · rcases hro : r.readOk with _ | _
      · by_cases hf : f > 0
        · have := ih (i + 1) (some .readWrapped)
          simp only [execLoop, ht, hro, hf, if_pos]
          omega
        · simp [execLoop, ht, hro, hf]
      · rcases hss : isSuccessStatus r.status with _ | _
        · by_cases hr2 : (f > 0 && isRetryableStatusCode r.status) = true
          · have := ih (i + 1) (some (.requestError r.status r.body))
            simp [execLoop, ht, hro, hss, hr2]
            omega
          · simp [execLoop, ht, hro, hss, hr2]
        · simp [execLoop, ht, hro, hss]

/-- Once a performed attempt has a non-retryable outcome, the loop
returns right there: the attempt counter stops at `j + 1`. -/
theorem execLoop_stops_after_nonretryable (t : Nat → DoResult) (A : Nat) :
    ∀ fuel i last j, i ≤ j → j < (execLoop t A i fuel last).2 →
      codeNonRetryableOutcome (t j) = true →
      (execLoop t A i fuel last).2 = j + 1 := by
  intro fuel
  induction fuel with
  | zero =>
    intro i last j hij hj _
    simp [execLoop] at hj
    omega
  | succ f ih =>
    intro i last j hij hj hnr
    rcases ht : t i with c | r
    · have hfalse : codeNonRetryableOutcome (t i) = false := by
        rw [ht]; rfl
      by_cases hf : f > 0
      · simp only [execLoop, ht, hf, if_pos] at hj ⊢
        rcases Nat.lt_or_ge i j with hlt | hge
        · exact ih (i + 1) (some (.transportWrapped c)) j (by omega) hj hnr
        · have : i = j := by omega
          rw [← this] at hnr
          rw [hfalse] at hnr
          cases hnr
      · simp only [execLoop, ht, if_neg hf] at hj ⊢
        omega
    · rcases hro : r.readOk with _ | _
      · have hfalse : codeNonRetryableOutcome (t i) = false := by
          simp [codeNonRetryableOutcome, ht, hro]
        by_cases hf : f > 0
        · simp only [execLoop, ht, hro, Bool.false_eq_true, if_true,
            hf, if_pos] at hj ⊢
          rcases Nat.lt_or_ge i j with hlt | hge
          · exact ih (i + 1) (some .readWrapped) j (by omega) hj hnr
          · have : i = j := by omega
            rw [← this, hfalse] at hnr
            cases hnr
        · simp only [execLoop, ht, hro, Bool.false_eq_true, if_true,
            if_neg hf] at hj ⊢
          omega
      · rcases hss : isSuccessStatus r.status with _ | _
        · by_cases hr2 : (f > 0 && isRetryableStatusCode r.status) = true
          · have hfalse : codeNonRetryableOutcome (t i) = false := by
              simp only [codeNonRetryableOutcome, ht, hro, hss,
                Bool.true_and, Bool.false_or]
              simp only [Bool.and_eq_true] at hr2
              simp [hr2.2]
            simp only [execLoop, ht, hro, hss, Bool.true_eq_false,
              if_false, Bool.false_eq_true, if_true, hr2, if_pos] at hj ⊢
            rcases Nat.lt_or_ge i j with hlt | hge
            · exact ih (i + 1) (some (.requestError r.status r.body)) j
                (by omega) hj hnr
            · have : i = j := by omega
              rw [← this, hfalse] at hnr
              cases hnr
          · simp only [execLoop, ht, hro, hss, Bool.true_eq_false,
              if_false, Bool.false_eq_true, if_true, hr2,
              if_neg hr2] at hj ⊢
            omega
        · simp only [execLoop, ht, hro, hss, Bool.true_eq_false,
            if_false] at hj ⊢
          omega

/-- C8 counterexample: under the spec's §4.2 classification that the
claim's "non-retryable outcome" refers to, a cancellation transport
failure is non-retryable — yet with the always-cancelled transport and
budget 3, attempt 0 is performed, its outcome is non-retryable, and the
call still performs 3 attempts, not 0 + 1: further attempts DO follow a
non-retryable outcome. -/
theorem c8_counterexample_cancellation_not_last :
    specNonRetryableOutcome (alwaysCancelled 0) = true ∧
      0 < (execReq alwaysCancelled 3).2 ∧
      (execReq alwaysCancelled 3).2 ≠ 0 + 1 := by
  refine ⟨rfl, by decide, by decide⟩

/-- C8 (amended): against every transport behavior, `execReq` performs
at most `maxAttempts` attempts; and any performed attempt whose outcome
is non-retryable IN THE CODE'S OWN classification — a fully-read 2xx
success or a fully-read non-retryable status, but, deviating from §4.2,
never a transport failure, so that cancellation failures are (wrongly,
the C2 bug) retried — is the last one: no further attempt follows it.
Every outcome the code stops on is also non-retryable per §4.2; the
deviation is one-sided. -/
theorem c8_attempt_budget_and_stop (t : Nat → DoResult) (A : Nat) :
    (execReq t A).2 ≤ A ∧
      (∀ j, j < (execReq t A).2 → codeNonRetryableOutcome (t j) = true →
        (execReq t A).2 = j + 1) ∧
      (∀ d, codeNonRetryableOutcome d = true →
        specNonRetryableOutcome d = true) := by
  refine ⟨?_, ?_, ?_⟩
  · have := execLoop_used_le t A A 0 none
    simpa [execReq] using this
  · intro j hj hnr
    exact execLoop_stops_after_nonretryable t A A 0 none j
      (Nat.zero_le j) hj hnr
  · intro d hd
    cases d with
    | fail c => simp [codeNonRetryableOutcome] at hd
    | resp r => exact hd

/-- C8 witness: the 404 transport with budget 3 stops after attempt 0:
at most 3 attempts, exactly 1 because attempt 0's outcome is in the
code's non-retryable class, and that outcome is also terminal per the
spec's classification. -/
theorem c8_attempt_budget_and_stop_witness :
    (execReq notFound404 3).2 ≤ 3 ∧ (execReq notFound404 3).2 = 0 + 1 ∧
      specNonRetryableOutcome (notFound404 0) = true :=
  ⟨(c8_attempt_budget_and_stop notFound404 3).1,
    (c8_attempt_budget_and_stop notFound404 3).2.1 0 (by decide) (by decide),
    (c8_attempt_budget_and_stop notFound404 3).2.2 (notFound404 0)
      (by decide)⟩

/-!
## Method builders and header assembly

The builders (http_rest.go lines 130-229) assemble a request and call
`c.execReq(req, c.maxAttempts)`. Header writing is Go's
`req.Header.Set(k, v)`, which stores under the canonical MIME form of
`k` (capitalize the first letter and every letter following a hyphen,
lowercase the rest — `textproto.CanonicalMIMEHeaderKey`, modelled here
for keys made of valid token characters) and replaces any existing
value. The builder sets its default content-type first, then writes the
caller's headers, so a caller key with the same canonical form
overwrites the default. Payload encoding (JSON marshalling, form
encoding) only produces the request body, which the transport oracle
abstracts; it does not affect headers or the retry loop.
-/

def canonicalKeyAux : Bool → List Char → List Char
  | _, [] => []
  | up, ch :: rest =>
    (if up then ch.toUpper else ch.toLower) :: canonicalKeyAux (ch == '-') rest

/-- Canonical MIME header key, as used by Go's `Header.Set`. -/
def canonicalKey (s : String) : String :=
  String.mk (canonicalKeyAux true s.data)

/-- A `http.Header` restricted to single values: canonical key to
value. -/
def Header : Type := String → Option String

/-- `Header.Set`: store `v` under the canonical form of `k`, replacing
any previous value. -/
def headerSet (h : Header) (k v : String) : Header :=
  fun q => if q = canonicalKey k then some v else h q

/-- `Header.Get`: read the value stored under the canonical form of
`k`. -/
def headerGet (h : Header) (k : String) : Option String :=
  h (canonicalKey k)

def emptyHeader : Header := fun _ => none

/-- `for k, v := range headers { req.Header.Set(k, v) }` — the caller's
header map written in some iteration order, as a list. -/
def applyHeaders (h : Header) (hs : List (String × String)) : Header :=
  hs.foldl (fun acc kv => headerSet acc kv.1 kv.2) h

/-- Retry-policy fields of `HttpClient` (http_rest.go lines 29-34); the
wrapped `*http.Client` and logger play no role in the properties here. -/
structure HttpClient where
  baseDelay : Int
  maxAttempts : Nat

/-- Headers assembled by `PostJsonReq`: the `application/json` default,
then the caller's headers. -/
def postJsonHeaders (caller : List (String × String)) : Header :=
  applyHeaders (headerSet emptyHeader "Content-Type" "application/json")
    caller

/-- Headers assembled by `PutJsonReq`. -/
def putJsonHeaders (caller : List (String × String)) : Header :=
  applyHeaders (headerSet emptyHeader "Content-Type" "application/json")
    caller

/-- Headers assembled by `PatchJsonReq`. -/
def patchJsonHeaders (caller : List (String × String)) : Header :=
  applyHeaders (headerSet emptyHeader "Content-Type" "application/json")
    caller

/-- Headers assembled by `PostFormReq`: the form content-type and the
body's `Content-Length`, then the caller's headers. -/
def postFormHeaders (bodyLen : Nat) (caller : List (String × String)) :
    Header :=
  applyHeaders
    (headerSet
      (headerSet emptyHeader "Content-Type"
        "application/x-www-form-urlencoded")
      "Content-Length" (toString bodyLen))
    caller

/-- `PostJsonReq` (http_rest.go lines 130-147): assemble the request and
hand it to `execReq` with the policy's `c.maxAttempts`, returning the
executor's result unchanged. The transport oracle receives the
assembled headers. -/
def PostJsonReq (c : HttpClient) (transport : Header → Nat → DoResult)
    (caller : List (String × String)) : ExecResult × Nat :=
  execReq (transport (postJsonHeaders caller)) c.maxAttempts

/-- `PutJsonReq` (http_rest.go lines 180-197). -/
def PutJsonReq (c : HttpClient) (transport : Header → Nat → DoResult)
    (caller : List (String × String)) : ExecResult × Nat :=
  execReq (transport (putJsonHeaders caller)) c.maxAttempts

/-- `PatchJsonReq` (http_rest.go lines 199-216). -/
def PatchJsonReq (c : HttpClient) (transport : Header → Nat → DoResult)
    (caller : List (String × String)) : ExecResult × Nat :=
  execReq (transport (patchJsonHeaders caller)) c.maxAttempts

/-- `PostFormReq` (http_rest.go lines 149-165). -/
def PostFormReq (c : HttpClient) (transport : Header → Nat → DoResult)
    (bodyLen : Nat) (caller : List (String × String)) :
    ExecResult × Nat :=
  execReq (transport (postFormHeaders bodyLen caller)) c.maxAttempts

theorem applyHeaders_no_collision (hs : List (String × String)) :
    ∀ (h : Header) (q : String),
      (∀ kv ∈ hs, canonicalKey kv.1 ≠ q) → applyHeaders h hs q = h q := by
  induction hs with
  | nil => intro h q _; rfl
  | cons kv rest ih =>
    intro h q hno
    show applyHeaders (headerSet h kv.1 kv.2) rest q = h q
    rw [ih (headerSet h kv.1 kv.2) q
      (fun x hx => hno x (List.mem_cons_of_mem kv hx))]
    unfold headerSet
    rw [if_neg]
    intro hq
    exact hno kv (List.mem_cons_self kv rest) hq.symm

theorem applyHeaders_append (h : Header) (pre post : List (String × String)) :
    applyHeaders h (pre ++ post) = applyHeaders (applyHeaders h pre) post := by
  unfold applyHeaders
  rw [List.foldl_append]

/-- The last write wins: if no later caller entry collides with `k`,
the assembled header carries `v` at `k`'s canonical key. -/
theorem applyHeaders_override (h : Header) (pre post : List (String × String))
    (k v : String)
    (hpost : ∀ kv ∈ post, canonicalKey kv.1 ≠ canonicalKey k) :
    applyHeaders h (pre ++ (k, v) :: post) (canonicalKey k) = some v := by
  rw [applyHeaders_append]
  show applyHeaders (headerSet (applyHeaders h pre) k v) post
    (canonicalKey k) = some v
  rw [applyHeaders_no_collision post _ _ hpost]
  unfold headerSet
  rw [if_pos rfl]

/-- C9: each JSON builder sets the `Content-Type: application/json`
default and the form builder sets
`Content-Type: application/x-www-form-urlencoded`; when a caller entry
`(k, v)` collides with the default key (same canonical form,
`Content-Type`) and no later caller entry collides with it too, the
assembled request carries the caller's `v`; and every builder hands the
assembled request to `execReq` with the policy's fixed `c.maxAttempts`,
returning the executor's result unchanged. -/
theorem c9_builders_header_override_and_propagation (c : HttpClient)
    (transport : Header → Nat → DoResult) (bodyLen : Nat)
    (pre post : List (String × String)) (k v : String)
    (hck : canonicalKey k = "Content-Type")
    (hpost : ∀ kv ∈ post, canonicalKey kv.1 ≠ canonicalKey k) :
    (headerGet (postJsonHeaders []) "Content-Type" =
        some "application/json" ∧
      headerGet (putJsonHeaders []) "Content-Type" =
        some "application/json" ∧
      headerGet (patchJsonHeaders []) "Content-Type" =
        some "application/json" ∧
      headerGet (postFormHeaders bodyLen []) "Content-Type" =
        some "application/x-www-form-urlencoded") ∧
    (headerGet (postJsonHeaders (pre ++ (k, v) :: post)) "Content-Type" =
        some v ∧
      headerGet (putJsonHeaders (pre ++ (k, v) :: post)) "Content-Type" =
        some v ∧
      headerGet (patchJsonHeaders (pre ++ (k, v) :: post)) "Content-Type" =
        some v ∧
      headerGet (postFormHeaders bodyLen (pre ++ (k, v) :: post))
        "Content-Type" = some v) ∧
    (PostJsonReq c transport (pre ++ (k, v) :: post) =
        execReq (transport (postJsonHeaders (pre ++ (k, v) :: post)))
          c.maxAttempts ∧
      PutJsonReq c transport (pre ++ (k, v) :: post) =
        execReq (transport (putJsonHeaders (pre ++ (k, v) :: post)))
          c.maxAttempts ∧
      PatchJsonReq c transport (pre ++ (k, v) :: post) =
        execReq (transport (patchJsonHeaders (pre ++ (k, v) :: post)))
          c.maxAttempts ∧
      PostFormReq c transport bodyLen (pre ++ (k, v) :: post) =
        execReq (transport (postFormHeaders bodyLen (pre ++ (k, v) :: post)))
          c.maxAttempts) := by
  have hget : ∀ h : Header, headerGet h "Content-Type" = h "Content-Type" := by
    intro h
    unfold headerGet
    rw [show canonicalKey "Content-Type" = "Content-Type" from by decide]
  refine ⟨⟨?_, ?_, ?_, ?_⟩, ⟨?_, ?_, ?_, ?_⟩, rfl, rfl, rfl, rfl⟩
  · decide
  · decide
  · decide
  · rw [hget]
    unfold postFormHeaders applyHeaders headerSet
    simp only [List.foldl_nil]
    rw [if_neg (by decide), if_pos (by decide)]
  · rw [hget, ← hck]
    exact applyHeaders_override _ pre post k v hpost
  · rw [hget, ← hck]
    exact applyHeaders_override _ pre post k v hpost
  · rw [hget, ← hck]
    exact applyHeaders_override _ pre post k v hpost
  · rw [hget, ← hck]
    exact applyHeaders_override _ pre post k v hpost

/-- C9 witness: caller key `content-type` (lowercase) collides with the
`Content-Type` default of `PostJsonReq` and the caller's value wins. -/
theorem c9_builders_header_override_and_propagation_witness :
    headerGet (postJsonHeaders [("content-type", "text/plain")])
        "Content-Type" = some "text/plain" ∧
      PostJsonReq ⟨nsPerSecond, 3⟩ (fun _ => notFound404)
          [("content-type", "text/plain")] =
        execReq notFound404 3 := by
  have h := c9_builders_header_override_and_propagation ⟨nsPerSecond, 3⟩
    (fun _ => notFound404) 0 [] [] "content-type" "text/plain"
    (by decide) (by intro kv hkv; cases hkv)
  exact ⟨h.2.1.1, h.2.2.1⟩
